import Mathlib

/-!
Shallow embedding of `src/utils_finance.py` (TFM-reinforcement-learning).

The numeric data of the program are IEEE-754 doubles produced by pandas /
numpy.  We idealise finite doubles as exact rationals (for the arithmetic
the code performs: division, subtraction, addition, multiplication) and
keep the IEEE special values explicitly, because the code relies on the
silent propagation of `inf` and `NaN` (no validation, nothing is caught).
The logarithm (`np.log`) lands in the reals, so log-mode series carry
values in `FVal ℝ`.
-/

/-- An IEEE-style floating value: a finite value of type `α`, positive
infinity, negative infinity, or NaN.  (The sign of zero is not modelled:
the program only ever divides by the positive literal fill value `0` or
by data values.) -/
inductive FVal (α : Type) where
  | fin : α → FVal α
  | pinf : FVal α
  | ninf : FVal α
  | nan : FVal α
deriving DecidableEq

namespace FVal

variable {α : Type} [LinearOrderedField α]

/-- IEEE division on `FVal`:  x/0 is ±inf by the sign of x and 0/0 is NaN
(numpy semantics for float division, warnings aside). -/
def fdiv : FVal α → FVal α → FVal α
  | nan, _ => nan
  | _, nan => nan
  | fin x, fin y =>
      if y = 0 then
        if x = 0 then nan else if 0 < x then pinf else ninf
      else fin (x / y)
  | fin _, pinf => fin 0
  | fin _, ninf => fin 0
  | pinf, fin y => if 0 ≤ y then pinf else ninf
  | ninf, fin y => if 0 ≤ y then ninf else pinf
  | pinf, pinf => nan
  | pinf, ninf => nan
  | ninf, pinf => nan
  | ninf, ninf => nan

/-- IEEE addition on `FVal` (inf + (-inf) = NaN). -/
def fadd : FVal α → FVal α → FVal α
  | nan, _ => nan
  | _, nan => nan
  | fin x, fin y => fin (x + y)
  | fin _, pinf => pinf
  | fin _, ninf => ninf
  | pinf, fin _ => pinf
  | ninf, fin _ => ninf
  | pinf, pinf => pinf
  | ninf, ninf => ninf
  | pinf, ninf => nan
  | ninf, pinf => nan

/-- IEEE subtraction on `FVal` (inf - inf = NaN). -/
def fsub : FVal α → FVal α → FVal α
  | nan, _ => nan
  | _, nan => nan
  | fin x, fin y => fin (x - y)
  | fin _, pinf => ninf
  | fin _, ninf => pinf
  | pinf, fin _ => pinf
  | ninf, fin _ => ninf
  | pinf, pinf => nan
  | ninf, ninf => nan
  | pinf, ninf => pinf
  | ninf, pinf => ninf

/-- IEEE multiplication on `FVal` (0 * inf = NaN). -/
def fmul : FVal α → FVal α → FVal α
  | nan, _ => nan
  | _, nan => nan
  | fin x, fin y => fin (x * y)
  | fin x, pinf => if x = 0 then nan else if 0 < x then pinf else ninf
  | fin x, ninf => if x = 0 then nan else if 0 < x then ninf else pinf
  | pinf, fin y => if y = 0 then nan else if 0 < y then pinf else ninf
  | ninf, fin y => if y = 0 then nan else if 0 < y then ninf else pinf
  | pinf, pinf => pinf
  | pinf, ninf => ninf
  | ninf, pinf => ninf
  | ninf, ninf => pinf

/-- Whether the value is finite (neither infinite nor NaN). -/
def isFin : FVal α → Bool
  | fin _ => true
  | _ => false

/-- `np.log` on an IEEE value with an exact rational payload:
log of a positive finite value is its real logarithm, log 0 = -inf,
log of a negative value is NaN, log inf = inf, log(-inf) = log NaN = NaN. -/
noncomputable def flog : FVal ℚ → FVal ℝ
  | fin q => if 0 < q then fin (Real.log q) else if q = 0 then ninf else nan
  | pinf => pinf
  | ninf => nan
  | nan => nan

end FVal

open FVal

/-- A date-indexed series, as pandas aligns values to an index.  The
program never re-aligns two series with different indexes, so elementwise
operations act positionally on `vals` and carry `idx` through. -/
structure FSeries (α : Type) where
  idx : List String
  vals : List α
deriving DecidableEq

/-- A Price Series: the `Close` column the Return Calculator selects from
the fetched dataframe (`data['Close']`), date-indexed, finite float values
idealised as exact rationals. -/
abbrev PriceSeries := FSeries ℚ

/-- `series.pct_change()` on the list of values: entry 0 is NaN (the
shifted divisor is missing), entry i (i ≥ 1) is `Close[i]/Close[i-1] - 1`
under IEEE arithmetic. -/
def pct_change_vals (close : List ℚ) : List (FVal ℚ) :=
  match close with
  | [] => []
  | c :: rest =>
      FVal.nan ::
        List.zipWith (fun cur prev => fsub (fdiv (fin cur) (fin prev)) (fin 1))
          rest (c :: rest)

/-- `series.shift(1, fill_value = 0)` on the list of values. -/
def shift_fill0 (close : List ℚ) : List ℚ :=
  match close with
  | [] => []
  | _ :: _ => 0 :: close.dropLast

/-- The `log = False` branch of `compute_returns`:
`returns = series.pct_change(); returns[0] = 1` (positional write of the
sentinel into the freshly derived series).  The `[]` clause is a
placeholder: on an empty series the positional write raises IndexError
instead of producing a series — `compute_returns_simple_checked` models
that error path; this list-level function is meaningful for nonempty
input. -/
def compute_returns_simple_vals (close : List ℚ) : List (FVal ℚ) :=
  match pct_change_vals close with
  | [] => []
  | _ :: rest => fin 1 :: rest

/-- The `log = True` branch of `compute_returns`:
`series_lag = series.shift(1, fill_value = 0); returns = np.log(series_lag / series)`. -/
noncomputable def compute_returns_log_vals (close : List ℚ) : List (FVal ℝ) :=
  (List.zipWith (fun lag cur => fdiv (fin lag) (fin cur)) (shift_fill0 close) close).map
    flog

/-- `compute_returns(data, log = False)` as a series: pandas elementwise
operations keep the index of the input. -/
def compute_returns_simple (data : PriceSeries) : FSeries (FVal ℚ) :=
  ⟨data.idx, compute_returns_simple_vals data.vals⟩

/-- `compute_returns(data, log = False)` including its error path: on an
empty series `series.pct_change()` is empty and the positional write
`returns[0] = 1` raises IndexError (out-of-bounds positional write on a
date-indexed series), modelled as `none`; on a nonempty series the call
succeeds and returns the series of `compute_returns_simple_vals`. -/
def compute_returns_simple_checked (data : PriceSeries) :
    Option (FSeries (FVal ℚ)) :=
  match data.vals with
  | [] => none
  | _ :: _ => some (compute_returns_simple data)

/-- `compute_returns(data, log = True)` as a series. -/
noncomputable def compute_returns_log (data : PriceSeries) : FSeries (FVal ℝ) :=
  ⟨data.idx, compute_returns_log_vals data.vals⟩

/-- `Series.cumprod` worker with pandas' default `skipna=True`: a NaN
entry is emitted as NaN but skipped by the accumulation (pandas masks
NaN to 1 before `np.cumprod` and restores NaN afterwards); a non-NaN
entry multiplies the running product and is emitted.  A NaN that arises
from the multiplication itself (e.g. 0 * inf) stays in the accumulator
and propagates, as in numpy. -/
def cumprodAux {α : Type} [LinearOrderedField α] :
    FVal α → List (FVal α) → List (FVal α)
  | _, [] => []
  | acc, x :: rest =>
      if x = FVal.nan then FVal.nan :: cumprodAux acc rest
      else fmul acc x :: cumprodAux (fmul acc x) rest

/-- `Series.cumprod()` (default `skipna=True`) on the list of values:
the running product starts from 1, NaN inputs stay NaN in the output but
do not enter the accumulation. -/
def cumprod {α : Type} [LinearOrderedField α]
    (xs : List (FVal α)) : List (FVal α) :=
  cumprodAux (fin 1) xs

/-- `(returns + 1).cumprod()` inside `plot_cummulative_returns`, for the
simple-mode return series. -/
def cummulative_returns_simple_vals (close : List ℚ) : List (FVal ℚ) :=
  cumprod ((compute_returns_simple_vals close).map (fun r => fadd r (fin 1)))

/-- `(returns + 1).cumprod()` inside `plot_cummulative_returns`, for the
log-mode return series. -/
noncomputable def cummulative_returns_log_vals (close : List ℚ) : List (FVal ℝ) :=
  cumprod ((compute_returns_log_vals close).map (fun r => fadd r (fin 1)))

/-! ## Fetcher (`download_stock`) -/

/-- A dataframe with single-level column labels: ordered (name, column)
pairs plus a date index. -/
structure DataFrame where
  index : List String
  cols : List (String × List ℚ)
deriving DecidableEq

/-- The raw frame `pdr.get_data_yahoo(symbols = stock, ...)` returns:
multi-level columns labelled (attribute, symbol). -/
structure RawFrame where
  index : List String
  cols : List ((String × String) × List ℚ)
deriving DecidableEq

/-- The request `download_stock` issues to the provider.  Note the whole
symbol list is passed (`symbols = stock`), not just its first element. -/
structure Request where
  symbols : List String
  date_start : String
  date_end : String
deriving DecidableEq

/-- `logger.info('Download data from {}'.format(stock[0]))`: the log line
mentions only the first symbol.  (`stock[0]` on an empty list raises in
Python; the default argument is the one-element list `['AAPL']`.) -/
def download_log (stock : List String) : String :=
  "Download data from " ++ stock.headD ""

/-- The request built from `download_stock`'s arguments. -/
def download_request (stock : List String) (ds de : String) : Request :=
  ⟨stock, ds, de⟩

/-- `df.columns = df.columns.get_level_values(1)` (and the cosmetic
`columns.name = None`, `index.name = None`): flatten the multi-level
labels to their second level. -/
def get_level_values_1 (df : RawFrame) : DataFrame :=
  ⟨df.index, df.cols.map (fun c => (c.1.2, c.2))⟩

/-- `df.columns = ['Adj Close', 'Close', 'High', 'Low', 'Open', 'Volume']`:
positional rename; pandas raises a ValueError (here `none`) unless the
frame has exactly six columns. -/
def set_yahoo_columns (df : DataFrame) : Option DataFrame :=
  if df.cols.length = 6 then
    some ⟨df.index,
      (df.cols.zip ["Adj Close", "Close", "High", "Low", "Open", "Volume"]).map
        (fun p => (p.2, p.1.2))⟩
  else none

/-- `df[n]`: the first column labelled `n`, `none` for a KeyError. -/
def getCol (df : DataFrame) (n : String) : Option (List ℚ) :=
  (df.cols.find? (fun c => c.1 == n)).map Prod.snd

/-- `df[[...]]`: select the named columns in the given order, `none` for a
KeyError. -/
def select_cols (df : DataFrame) (ns : List String) : Option DataFrame :=
  (ns.mapM (fun n => (getCol df n).map (fun v => (n, v)))).map
    (fun cs => ⟨df.index, cs⟩)

/-- `download_stock`, with the external provider (`pdr.get_data_yahoo`)
passed in as a function from the issued request to the raw frame it
returns.  Produces the log line and the reshaped frame (`none` models a
raised reshaping error). -/
def download_stock (provider : Request → RawFrame) (stock : List String)
    (ds de : String) : String × Option DataFrame :=
  let msg := download_log stock
  let df := get_level_values_1 (provider (download_request stock ds de))
  (msg, (set_yahoo_columns df).bind
    (fun d => select_cols d ["Open", "Low", "Close", "High", "Volume"]))

/-! ## Cumulative-return plot (`plot_cummulative_returns`) -/

/-- The matplotlib/seaborn axes object `plot_cummulative_returns` builds:
the plotted values and the formatting it applies. -/
structure AxesPlot (α : Type) where
  ys : List α
  title : String
  xlabel : String
  ylabel : String
deriving DecidableEq

/-- `plot_cummulative_returns(data, tick, log = False, show)`: compute the
simple-mode cumulative returns, build the formatted plot, and either
display it (`none` returned) or hand the axes object back. -/
def plot_cummulative_returns_simple (data : PriceSeries) (tick : String)
    (shw : Bool) : Option (AxesPlot (FVal ℚ)) :=
  let ax : AxesPlot (FVal ℚ) :=
    ⟨cummulative_returns_simple_vals data.vals,
      tick ++ " - Daily Cummulative Returns", "", "Cummulative returns"⟩
  if shw then none else some ax

/-- `plot_cummulative_returns(data, tick, log = True, show)`. -/
noncomputable def plot_cummulative_returns_log (data : PriceSeries)
    (tick : String) (shw : Bool) : Option (AxesPlot (FVal ℝ)) :=
  let ax : AxesPlot (FVal ℝ) :=
    ⟨cummulative_returns_log_vals data.vals,
      tick ++ " - Daily Cummulative Returns", "", "Cummulative returns"⟩
  if shw then none else some ax

/-! ## Buffer store: which series object does each operation write to?

`compute_returns` selects `data['Close']` — in pandas a view over the
input's column buffer, not a copy — and then performs exactly one in-place
write, `returns[0] = 1`, on the series `pct_change` freshly allocated.
To settle the frame claim we track buffers explicitly: a store of series
buffers, pandas objects referring to them by id. -/

structure Store where
  bufs : List (List (FVal ℚ))
deriving DecidableEq

/-- Read a buffer (out-of-range reads return an empty series; the program
only reads ids it holds). -/
def Store.read (st : Store) (b : Nat) : List (FVal ℚ) :=
  (st.bufs.getD b [])

/-- Allocate a fresh buffer holding `v`, returning its id. -/
def Store.alloc (st : Store) (v : List (FVal ℚ)) : Store × Nat :=
  (⟨st.bufs ++ [v]⟩, st.bufs.length)

/-- In-place positional write `series[i] = x` into buffer `b`. -/
def Store.write (st : Store) (b i : Nat) (x : FVal ℚ) : Store :=
  ⟨st.bufs.set b ((st.read b).set i x)⟩

/-- `pct_change` lifted to a buffer of float values (entry 0 NaN, entry i
is value[i]/value[i-1] - 1). -/
def pct_change_fv (xs : List (FVal ℚ)) : List (FVal ℚ) :=
  match xs with
  | [] => []
  | x :: rest =>
      FVal.nan ::
        List.zipWith (fun cur prev => fsub (fdiv cur prev) (fin 1)) rest (x :: rest)

/-- `compute_returns(data, log = False)` against the store: `data['Close']`
aliases the input buffer `close_buf`; `series.pct_change()` allocates a
fresh buffer; `returns[0] = 1` writes into that fresh buffer.  Returns the
updated store and the id of the returned series. -/
def compute_returns_st (st : Store) (close_buf : Nat) : Store × Nat :=
  let series_buf := close_buf
  let p := st.alloc (pct_change_fv (st.read series_buf))
  let st2 := p.1.write p.2 0 (fin 1)
  (st2, p.2)

/-- `plot_cummulative_returns(data, ..., log = False, ...)` against the
store: compute the returns, then `(returns + 1).cumprod()` allocates a
fresh buffer which the local name `returns` is rebound to. -/
def plot_cummulative_returns_st (st : Store) (close_buf : Nat) : Store × Nat :=
  let p := compute_returns_st st close_buf
  p.1.alloc (cumprod ((p.1.read p.2).map (fun r => fadd r (fin 1))))

/-! ## Helper lemmas -/

@[simp] lemma fin_ne_nan {γ : Type} (v : γ) : (fin v : FVal γ) ≠ FVal.nan := by
  intro h
  exact FVal.noConfusion h

@[simp] lemma pinf_ne_nan {γ : Type} : (FVal.pinf : FVal γ) ≠ FVal.nan := by
  intro h
  exact FVal.noConfusion h

@[simp] lemma ninf_ne_nan {γ : Type} : (FVal.ninf : FVal γ) ≠ FVal.nan := by
  intro h
  exact FVal.noConfusion h

lemma zipWith_dropLast_tail {γ δ : Type} (f : γ → γ → δ) :
    ∀ l : List γ, List.zipWith f l.dropLast l.tail = List.zipWith f l l.tail
  | [] => rfl
  | [_] => rfl
  | a :: b :: t => by
      show f a b :: List.zipWith f (b :: t).dropLast t =
        f a b :: List.zipWith f (b :: t) t
      have ih := zipWith_dropLast_tail f (b :: t)
      simp only [List.tail_cons] at ih
      rw [ih]

lemma zipWith_tail_flip {γ δ : Type} (g : γ → γ → δ) :
    ∀ l : List γ, List.zipWith g l.tail l = List.zipWith (fun a b => g b a) l l.tail
  | [] => rfl
  | [_] => rfl
  | a :: b :: t => by
      show g b a :: List.zipWith g t (b :: t) =
        g b a :: List.zipWith (fun a b => g b a) (b :: t) t
      have ih := zipWith_tail_flip g (b :: t)
      simp only [List.tail_cons] at ih
      rw [ih]

lemma zipWith_tail_getElem {γ δ : Type} (g : γ → γ → δ) :
    ∀ (l : List γ) (i : Nat) (p c : γ), l[i]? = some p → l[i + 1]? = some c →
      (List.zipWith g l l.tail)[i]? = some (g p c)
  | [], i, p, c, h1, _ => by simp at h1
  | [a], _, p, c, _, h2 => by simp at h2
  | a :: b :: t, 0, p, c, h1, h2 => by
      simp only [List.getElem?_cons_zero, List.getElem?_cons_succ,
        Option.some.injEq] at h1 h2
      subst h1; subst h2
      show (g a b :: List.zipWith g (b :: t) t)[0]? = some (g a b)
      simp
  | a :: b :: t, i + 1, p, c, h1, h2 => by
      rw [List.getElem?_cons_succ] at h1 h2
      show (g a b :: List.zipWith g (b :: t) t)[i + 1]? = some (g p c)
      have ih := zipWith_tail_getElem g (b :: t) i p c h1 h2
      simp only [List.tail_cons] at ih
      simpa using ih

lemma zip_shift_fill0 {δ : Type} (f : ℚ → ℚ → δ) (c : ℚ) (rest : List ℚ) :
    List.zipWith f (shift_fill0 (c :: rest)) (c :: rest) =
      f 0 c :: List.zipWith f (c :: rest) rest := by
  show f 0 c :: List.zipWith f (c :: rest).dropLast rest = _
  have h := zipWith_dropLast_tail f (c :: rest)
  simp only [List.tail_cons] at h
  rw [h]

lemma pct_change_vals_cons (c : ℚ) (rest : List ℚ) :
    pct_change_vals (c :: rest) =
      FVal.nan ::
        List.zipWith
          (fun prev cur => fsub (fdiv (fin cur) (fin prev)) (fin 1))
          (c :: rest) rest := by
  show FVal.nan ::
      List.zipWith (fun cur prev => fsub (fdiv (fin cur) (fin prev)) (fin 1))
        rest (c :: rest) = _
  have h := zipWith_tail_flip
    (fun cur prev => fsub (fdiv (fin cur) (fin prev)) (fin 1)) (c :: rest)
  simp only [List.tail_cons] at h
  rw [h]

lemma compute_returns_simple_vals_cons (c : ℚ) (rest : List ℚ) :
    compute_returns_simple_vals (c :: rest) =
      fin 1 ::
        List.zipWith
          (fun prev cur => fsub (fdiv (fin cur) (fin prev)) (fin 1))
          (c :: rest) rest := by
  rw [compute_returns_simple_vals, pct_change_vals_cons]

lemma compute_returns_log_vals_cons (c : ℚ) (rest : List ℚ) :
    compute_returns_log_vals (c :: rest) =
      flog (fdiv (fin 0) (fin c)) ::
        (List.zipWith (fun lag cur => fdiv (fin lag) (fin cur))
          (c :: rest) rest).map flog := by
  rw [compute_returns_log_vals, zip_shift_fill0]
  rfl

lemma pct_change_vals_length (close : List ℚ) :
    (pct_change_vals close).length = close.length := by
  cases close with
  | nil => rfl
  | cons c rest => simp [pct_change_vals]

lemma compute_returns_simple_vals_length (close : List ℚ) :
    (compute_returns_simple_vals close).length = close.length := by
  cases close with
  | nil => rfl
  | cons c rest => rw [compute_returns_simple_vals_cons]; simp

lemma compute_returns_log_vals_length (close : List ℚ) :
    (compute_returns_log_vals close).length = close.length := by
  cases close with
  | nil => rfl
  | cons c rest => rw [compute_returns_log_vals_cons]; simp

lemma fmul_nan_right {γ : Type} [LinearOrderedField γ] (a : FVal γ) :
    fmul a FVal.nan = FVal.nan := by
  cases a <;> rfl

lemma cumprodAux_getElem_zero {γ : Type} [LinearOrderedField γ]
    (t : List (FVal γ)) (acc x : FVal γ) (h : t[0]? = some x) :
    (cumprodAux acc t)[0]? = some (fmul acc x) := by
  cases t with
  | nil => simp at h
  | cons y t' =>
      simp only [List.getElem?_cons_zero, Option.some.injEq] at h
      subst h
      rw [show cumprodAux acc (y :: t') =
          (if y = FVal.nan then FVal.nan :: cumprodAux acc t'
           else fmul acc y :: cumprodAux (fmul acc y) t') from rfl]
      split_ifs with hy
      · subst hy
        rw [fmul_nan_right]
        simp
      · simp

lemma cumprodAux_getElem {γ : Type} [LinearOrderedField γ] :
    ∀ (L : List (FVal γ)) (acc : FVal γ) (i : Nat) (u x : FVal γ),
      (cumprodAux acc L)[i]? = some u → u ≠ FVal.nan → L[i + 1]? = some x →
      (cumprodAux acc L)[i + 1]? = some (fmul u x)
  | [], _, _, _, _, _, _, h2 => by simp at h2
  | y :: t, acc, i, u, x, h1, hun, h2 => by
      rw [show cumprodAux acc (y :: t) =
          (if y = FVal.nan then FVal.nan :: cumprodAux acc t
           else fmul acc y :: cumprodAux (fmul acc y) t) from rfl] at h1 ⊢
      rw [List.getElem?_cons_succ] at h2
      split_ifs at h1 ⊢ with hy
      · cases i with
        | zero =>
            simp only [List.getElem?_cons_zero, Option.some.injEq] at h1
            exact absurd h1.symm hun
        | succ j =>
            rw [List.getElem?_cons_succ] at h1
            rw [List.getElem?_cons_succ]
            exact cumprodAux_getElem t acc j u x h1 hun h2
      · cases i with
        | zero =>
            simp only [List.getElem?_cons_zero, Option.some.injEq] at h1
            subst h1
            rw [List.getElem?_cons_succ]
            exact cumprodAux_getElem_zero t (fmul acc y) x h2
        | succ j =>
            rw [List.getElem?_cons_succ] at h1
            rw [List.getElem?_cons_succ]
            exact cumprodAux_getElem t (fmul acc y) j u x h1 hun h2

lemma cumprod_getElem_succ {γ : Type} [LinearOrderedField γ]
    (xs : List (FVal γ)) (i : Nat) (u x : FVal γ)
    (h1 : (cumprod xs)[i]? = some u) (hun : u ≠ FVal.nan)
    (h2 : xs[i + 1]? = some x) :
    (cumprod xs)[i + 1]? = some (fmul u x) :=
  cumprodAux_getElem xs (fin 1) i u x h1 hun h2

lemma cumprod_getElem_zero {γ : Type} [LinearOrderedField γ]
    (xs : List (FVal γ)) (x : FVal γ) (h : xs[0]? = some x) :
    (cumprod xs)[0]? = some (fmul (fin 1) x) :=
  cumprodAux_getElem_zero xs (fin 1) x h

lemma fmul_isFin_false {γ : Type} [LinearOrderedField γ] (a x : FVal γ)
    (h : a.isFin = false) : (fmul a x).isFin = false := by
  cases a with
  | fin v => simp [isFin] at h
  | pinf =>
      cases x <;> first | rfl | (simp only [fmul, isFin]; split_ifs <;> rfl)
  | ninf =>
      cases x <;> first | rfl | (simp only [fmul, isFin]; split_ifs <;> rfl)
  | nan => cases x <;> rfl

lemma cumprodAux_isFin_false {γ : Type} [LinearOrderedField γ] :
    ∀ (L : List (FVal γ)) (acc : FVal γ), acc.isFin = false →
      ∀ v ∈ cumprodAux acc L, v.isFin = false
  | [], _, _, v, hv => by simp [cumprodAux] at hv
  | y :: t, acc, h, v, hv => by
      rw [show cumprodAux acc (y :: t) =
          (if y = FVal.nan then FVal.nan :: cumprodAux acc t
           else fmul acc y :: cumprodAux (fmul acc y) t) from rfl] at hv
      split_ifs at hv with hy
      · rcases List.mem_cons.mp hv with rfl | hv
        · rfl
        · exact cumprodAux_isFin_false t acc h v hv
      · rcases List.mem_cons.mp hv with rfl | hv
        · exact fmul_isFin_false acc y h
        · exact cumprodAux_isFin_false t (fmul acc y)
            (fmul_isFin_false acc y h) v hv

lemma fadd_comm {γ : Type} [LinearOrderedField γ] (x y : FVal γ) :
    fadd x y = fadd y x := by
  cases x <;> cases y <;> simp [fadd, add_comm]

lemma fmul_one_fadd_one {γ : Type} [LinearOrderedField γ] (r : FVal γ) :
    fmul (fin 1) (fadd r (fin 1)) = fadd (fin 1) r := by
  cases r with
  | fin v =>
      show fmul (fin 1) (fin (v + 1)) = fin (1 + v)
      show fin (1 * (v + 1)) = fin (1 + v)
      rw [one_mul, add_comm]
  | pinf =>
      show fmul (fin 1) FVal.pinf = FVal.pinf
      simp [fmul, one_ne_zero, zero_lt_one]
  | ninf =>
      show fmul (fin 1) FVal.ninf = FVal.ninf
      simp [fmul, one_ne_zero, zero_lt_one]
  | nan =>
      show fmul (fin 1) FVal.nan = FVal.nan
      rw [fmul_nan_right]

lemma cumprod_ninf_head_isFin_false {γ : Type} [LinearOrderedField γ]
    (M : List (FVal γ)) :
    ∀ v ∈ cumprod (FVal.ninf :: M), v.isFin = false := by
  intro v hv
  have hone : fmul (fin (1 : γ)) FVal.ninf = FVal.ninf := by
    simp [fmul, one_ne_zero, zero_lt_one]
  rw [show cumprod (FVal.ninf :: M) =
      (if (FVal.ninf : FVal γ) = FVal.nan
       then FVal.nan :: cumprodAux (fin 1) M
       else fmul (fin 1) FVal.ninf :: cumprodAux (fmul (fin 1) FVal.ninf) M)
      from rfl, if_neg (by simp), hone] at hv
  rcases List.mem_cons.mp hv with rfl | hv
  · rfl
  · exact cumprodAux_isFin_false M FVal.ninf rfl v hv

lemma Store.read_alloc (st : Store) (v : List (FVal ℚ)) (j : Nat)
    (h : j < st.bufs.length) : ((st.alloc v).1).read j = st.read j := by
  simp only [Store.alloc, Store.read, List.getD_eq_getElem?_getD]
  rw [List.getElem?_append_left h]

lemma Store.read_write_other (st : Store) (b i : Nat) (x : FVal ℚ) (j : Nat)
    (h : b ≠ j) : (st.write b i x).read j = st.read j := by
  simp only [Store.write, Store.read, List.getD_eq_getElem?_getD]
  rw [List.getElem?_set_ne h]

lemma compute_returns_simple_vals_head (c : ℚ) (rest : List ℚ) :
    (compute_returns_simple_vals (c :: rest))[0]? = some (fin 1) := by
  rw [compute_returns_simple_vals_cons]
  simp

lemma compute_returns_simple_vals_getElem (close : List ℚ) (i : Nat) (p c : ℚ)
    (hp : close[i]? = some p) (hc : close[i + 1]? = some c) :
    (compute_returns_simple_vals close)[i + 1]? =
      some (fsub (fdiv (fin c) (fin p)) (fin 1)) := by
  cases close with
  | nil => simp at hp
  | cons c0 rest =>
      rw [compute_returns_simple_vals_cons, List.getElem?_cons_succ]
      exact zipWith_tail_getElem
        (fun prev cur => fsub (fdiv (fin cur) (fin prev)) (fin 1))
        (c0 :: rest) i p c hp hc

lemma compute_returns_log_vals_head (c : ℚ) (rest : List ℚ) :
    (compute_returns_log_vals (c :: rest))[0]? =
      some (flog (fdiv (fin 0) (fin c))) := by
  rw [compute_returns_log_vals_cons]
  simp

lemma compute_returns_log_vals_getElem (close : List ℚ) (i : Nat) (p c : ℚ)
    (hp : close[i]? = some p) (hc : close[i + 1]? = some c) :
    (compute_returns_log_vals close)[i + 1]? =
      some (flog (fdiv (fin p) (fin c))) := by
  cases close with
  | nil => simp at hp
  | cons c0 rest =>
      rw [compute_returns_log_vals_cons, List.getElem?_cons_succ,
        List.getElem?_map]
      have hz := zipWith_tail_getElem
        (fun lag cur => fdiv (fin lag) (fin cur)) (c0 :: rest) i p c hp hc
      simp only [List.tail_cons] at hz
      rw [hz]
      rfl

/-! ## Claims -/

/-- C1: In logarithmic mode, for every Price Series and every index i ≥ 1
(phrased with i = j+1; positivity of the two closes makes the logarithm
real-valued), `compute_returns(data, log=True)` yields at index i the
natural log of Close[i-1]/Close[i] — the INVERSE ratio (previous over
current), not the conventional ln(Close[i]/Close[i-1]). -/
theorem compute_returns_log_inverse_ratio (data : PriceSeries) (j : Nat)
    (p c : ℚ) (hp : data.vals[j]? = some p) (hc : data.vals[j + 1]? = some c)
    (hpp : 0 < p) (hcp : 0 < c) :
    (compute_returns_log data).vals[j + 1]? =
      some (fin (Real.log ((p : ℝ) / (c : ℝ)))) := by
  show (compute_returns_log_vals data.vals)[j + 1]? = _
  rw [compute_returns_log_vals_getElem data.vals j p c hp hc]
  have h1 : fdiv (fin p) (fin c) = fin (p / c) := by
    simp [fdiv, hcp.ne']
  have h2 : (0 : ℚ) < p / c := div_pos hpp hcp
  rw [h1]
  simp only [flog, if_pos h2]
  norm_cast

/-- C1 witness: for Close = [2, 4], the log-mode return at index 1 is
ln(2/4). -/
theorem compute_returns_log_inverse_ratio_witness :
    (([2, 4] : List ℚ)[0]? = some 2 ∧ ([2, 4] : List ℚ)[1]? = some 4 ∧
      (0 : ℚ) < 2 ∧ (0 : ℚ) < 4) ∧
    (compute_returns_log ⟨["d0", "d1"], [2, 4]⟩).vals[1]? =
      some (fin (Real.log ((2 : ℝ) / (4 : ℝ)))) :=
  ⟨⟨rfl, rfl, by norm_num, by norm_num⟩,
    compute_returns_log_inverse_ratio ⟨["d0", "d1"], [2, 4]⟩ 0 2 4 rfl rfl
      (by norm_num) (by norm_num)⟩

/-- C2: In simple mode (the default), for every Price Series:
the entry at index 0 is the sentinel 1 regardless of the input values,
and the entry at index i ≥ 1 (phrased with i = j+1, previous close
nonzero so that the division is finite) is Close[i]/Close[i-1] - 1. -/
theorem compute_returns_simple_spec (data : PriceSeries) :
    (data.vals ≠ [] → (compute_returns_simple data).vals[0]? = some (fin 1)) ∧
    (∀ (j : Nat) (p c : ℚ), data.vals[j]? = some p →
      data.vals[j + 1]? = some c → p ≠ 0 →
      (compute_returns_simple data).vals[j + 1]? = some (fin (c / p - 1))) := by
  constructor
  · intro hne
    cases hv : data.vals with
    | nil => exact absurd hv hne
    | cons c0 rest =>
        show (compute_returns_simple_vals data.vals)[0]? = _
        rw [hv]
        exact compute_returns_simple_vals_head c0 rest
  · intro j p c hp hc hpne
    show (compute_returns_simple_vals data.vals)[j + 1]? = _
    rw [compute_returns_simple_vals_getElem data.vals j p c hp hc]
    simp [fdiv, fsub, hpne]

/-- C2 witness: Close = [2, 3] gives return[0] = 1 and
return[1] = 3/2 - 1. -/
theorem compute_returns_simple_spec_witness :
    (compute_returns_simple ⟨["d0", "d1"], [2, 3]⟩).vals[0]? = some (fin 1) ∧
    (compute_returns_simple ⟨["d0", "d1"], [2, 3]⟩).vals[1]? =
      some (fin ((3 : ℚ) / 2 - 1)) :=
  ⟨(compute_returns_simple_spec ⟨["d0", "d1"], [2, 3]⟩).1 (by simp),
    (compute_returns_simple_spec ⟨["d0", "d1"], [2, 3]⟩).2 0 2 3 rfl rfl
      (by norm_num)⟩

/-- C6 counterexample: the claim fails for a Price Series with two
consecutive zero closes.  Close = [1, 0, 0] contains a zero at position
2 > 0, but the simple-mode return there is NaN (from 0/0), not -1. -/
theorem zero_close_consecutive_counterexample :
    ([1, 0, 0] : List ℚ)[2]? = some 0 ∧
    (compute_returns_simple_vals [1, 0, 0])[2]? = some FVal.nan ∧
    (FVal.nan : FVal ℚ) ≠ fin (-1) := by
  refine ⟨by norm_num, ?_, by simp⟩
  have h := compute_returns_simple_vals_getElem [1, 0, 0] 1 0 0
    (by norm_num) (by norm_num)
  rw [h]
  simp [fdiv, fsub]

/-- C6 (amended): a zero Close at position i > 0 never raises — the
degenerate value propagates silently.  In simple mode the return at that
position is -1 provided the preceding close is nonzero (two consecutive
zeros give NaN instead); in logarithmic mode the value at that position
is never finite (inf or NaN). -/
theorem zero_close_returns (data : PriceSeries) (j : Nat) (p : ℚ)
    (hp : data.vals[j]? = some p) (hz : data.vals[j + 1]? = some 0) :
    (p ≠ 0 →
      (compute_returns_simple data).vals[j + 1]? = some (fin (-1))) ∧
    (∀ w, (compute_returns_log data).vals[j + 1]? = some w →
      w.isFin = false) := by
  constructor
  · intro hpne
    show (compute_returns_simple_vals data.vals)[j + 1]? = _
    rw [compute_returns_simple_vals_getElem data.vals j p 0 hp hz]
    simp [fdiv, fsub, hpne]
  · intro w hw
    show w.isFin = false
    have h := compute_returns_log_vals_getElem data.vals j p 0 hp hz
    have hw' : (compute_returns_log_vals data.vals)[j + 1]? = some w := hw
    rw [h, Option.some.injEq] at hw'
    subst hw'
    rcases lt_trichotomy p 0 with hps | hps | hps
    · simp [fdiv, flog, isFin, hps, not_lt_of_lt hps, hps.ne]
    · simp [fdiv, flog, isFin, hps]
    · simp [fdiv, flog, isFin, hps, hps.ne']

/-- C6 amended witness: Close = [1, 0]: the simple-mode return at index 1
is -1 and the log-mode value there is non-finite. -/
theorem zero_close_returns_witness :
    (compute_returns_simple ⟨["d0", "d1"], [1, 0]⟩).vals[1]? =
      some (fin (-1 : ℚ)) ∧
    (∀ w, (compute_returns_log ⟨["d0", "d1"], [1, 0]⟩).vals[1]? = some w →
      w.isFin = false) :=
  ⟨(zero_close_returns ⟨["d0", "d1"], [1, 0]⟩ 0 1 rfl rfl).1 (by norm_num),
    (zero_close_returns ⟨["d0", "d1"], [1, 0]⟩ 0 1 rfl rfl).2⟩

/-- C7 counterexample: the universal claim fails at the edges of the
domain.  With Close = [0], the log-mode return series has first entry
log(0/0) = NaN — exactly the gap marker the claim excludes; and on the
empty Price Series the simple-mode call raises IndexError (returns no
series at all) instead of returning a length-0 series. -/
theorem return_series_first_entry_counterexample :
    (compute_returns_log ⟨["d0"], [0]⟩).vals[0]? = some FVal.nan ∧
    compute_returns_simple_checked ⟨[], []⟩ = none := by
  constructor
  · show (compute_returns_log_vals [0])[0]? = some FVal.nan
    rw [compute_returns_log_vals_head 0 []]
    simp [fdiv, flog]
  · rfl

/-- C7 (amended): whenever the simple-mode call succeeds (equivalently,
whenever the Price Series is nonempty — on the empty series it raises),
it returns a series of the input's length on the input's index whose
first entry is the defined sentinel 1; the log-mode call always returns
a series of the input's length on the input's index, and its first
entry is a defined (non-NaN) float provided the first close is nonzero
(Close[0] = 0 puts the NaN gap log(0/0) at position 0). -/
theorem compute_returns_length_alignment (data : PriceSeries) :
    (∀ out, compute_returns_simple_checked data = some out →
      out.idx = data.idx ∧ out.vals.length = data.vals.length ∧
      out.vals[0]? = some (fin 1)) ∧
    (data.vals ≠ [] → ∃ out, compute_returns_simple_checked data = some out) ∧
    (data.vals = [] → compute_returns_simple_checked data = none) ∧
    (compute_returns_log data).idx = data.idx ∧
    (compute_returns_log data).vals.length = data.vals.length ∧
    (∀ c, data.vals[0]? = some c → c ≠ 0 →
      ∃ w, (compute_returns_log data).vals[0]? = some w ∧ w ≠ FVal.nan) := by
  obtain ⟨idx, vals⟩ := data
  refine ⟨?_, ?_, ?_, rfl, compute_returns_log_vals_length vals, ?_⟩
  · intro out hout
    cases vals with
    | nil => exact absurd hout (by simp [compute_returns_simple_checked])
    | cons c0 rest =>
        have hout' : some (compute_returns_simple ⟨idx, c0 :: rest⟩) =
            some out := hout
        rw [Option.some.injEq] at hout'
        subst hout'
        exact ⟨rfl, compute_returns_simple_vals_length (c0 :: rest),
          compute_returns_simple_vals_head c0 rest⟩
  · intro hne
    cases vals with
    | nil => exact absurd rfl hne
    | cons c0 rest => exact ⟨compute_returns_simple ⟨idx, c0 :: rest⟩, rfl⟩
  · intro he
    cases vals with
    | nil => rfl
    | cons c0 rest => exact absurd he (by simp)
  · intro c h0 hcne
    cases vals with
    | nil => simp at h0
    | cons c0 rest =>
        simp only [List.getElem?_cons_zero, Option.some.injEq] at h0
        subst h0
        refine ⟨FVal.ninf, ?_, by simp⟩
        show (compute_returns_log_vals (c0 :: rest))[0]? = _
        rw [compute_returns_log_vals_head]
        simp [fdiv, flog, hcne]

/-- C7 amended witness: Close = [2, 3]. -/
theorem compute_returns_length_alignment_witness :
    ((compute_returns_simple ⟨["d0", "d1"], [2, 3]⟩).idx = ["d0", "d1"] ∧
      (compute_returns_simple ⟨["d0", "d1"], [2, 3]⟩).vals.length = 2 ∧
      (compute_returns_simple ⟨["d0", "d1"], [2, 3]⟩).vals[0]? =
        some (fin 1)) ∧
    (∃ out, compute_returns_simple_checked ⟨["d0", "d1"], [2, 3]⟩ =
      some out) ∧
    (∃ w, (compute_returns_log ⟨["d0", "d1"], [2, 3]⟩).vals[0]? = some w ∧
      w ≠ FVal.nan) :=
  ⟨(compute_returns_length_alignment ⟨["d0", "d1"], [2, 3]⟩).1
      (compute_returns_simple ⟨["d0", "d1"], [2, 3]⟩) rfl,
    (compute_returns_length_alignment ⟨["d0", "d1"], [2, 3]⟩).2.1 (by simp),
    (compute_returns_length_alignment ⟨["d0", "d1"], [2, 3]⟩).2.2.2.2.2 2 rfl
      (by norm_num)⟩

/-- C10: in logarithmic mode the shift fill value 0 reaches the
logarithm: for every Price Series whose first close is positive, the
return at index 0 is log(0/Close[0]) = log 0 = -inf (not a finite
sentinel), and every entry of the cumulative product derived from the
log-mode returns is likewise non-finite. -/
theorem log_mode_first_entry_neg_inf (data : PriceSeries) (c : ℚ)
    (h0 : data.vals[0]? = some c) (hc : 0 < c) :
    (compute_returns_log data).vals[0]? = some FVal.ninf ∧
    ∀ v ∈ cummulative_returns_log_vals data.vals, v.isFin = false := by
  obtain ⟨idx, vals⟩ := data
  cases vals with
  | nil => simp at h0
  | cons c0 rest =>
      simp only [List.getElem?_cons_zero, Option.some.injEq] at h0
      subst h0
      have hdiv : fdiv (fin (0 : ℚ)) (fin c0) = fin 0 := by
        simp [fdiv, hc.ne']
      have hlog : flog (fin (0 : ℚ)) = FVal.ninf := by
        simp [flog]
      constructor
      · show (compute_returns_log_vals (c0 :: rest))[0]? = _
        rw [compute_returns_log_vals_head, hdiv, hlog]
      · intro v hv
        rw [show cummulative_returns_log_vals (c0 :: rest) =
            cumprod ((compute_returns_log_vals (c0 :: rest)).map
              (fun r => fadd r (fin 1))) from rfl,
          compute_returns_log_vals_cons, hdiv, hlog] at hv
        rw [List.map_cons] at hv
        rw [show fadd FVal.ninf (fin (1 : ℝ)) = FVal.ninf from rfl] at hv
        exact cumprod_ninf_head_isFin_false _ v hv

/-- C10 witness: Close = [2, 3]. -/
theorem log_mode_first_entry_neg_inf_witness :
    (compute_returns_log ⟨["d0", "d1"], [2, 3]⟩).vals[0]? =
      some FVal.ninf ∧
    ∀ v ∈ cummulative_returns_log_vals [2, 3], v.isFin = false :=
  log_mode_first_entry_neg_inf ⟨["d0", "d1"], [2, 3]⟩ 2 rfl (by norm_num)

/-- C3 counterexample: the unconditional recurrence fails under pandas'
`skipna=True` cumprod.  Close = [0, 0, 1] gives simple returns
[1, NaN, inf] and cumulative series [2, NaN, inf]: at index 2 the
claimed recurrence demands cumret[2] = cumret[1] * (1 + return[2]) =
NaN * inf = NaN, but the program produces inf because the accumulation
skipped the NaN. -/
theorem cummulative_recurrence_counterexample :
    (compute_returns_simple_vals [0, 0, 1])[2]? = some FVal.pinf ∧
    (cummulative_returns_simple_vals [0, 0, 1])[1]? = some FVal.nan ∧
    (cummulative_returns_simple_vals [0, 0, 1])[2]? = some FVal.pinf ∧
    fmul FVal.nan (fadd (fin 1) (FVal.pinf : FVal ℚ)) = FVal.nan ∧
    (FVal.pinf : FVal ℚ) ≠ FVal.nan := by
  refine ⟨?_, ?_, ?_, rfl, by simp⟩ <;>
    norm_num [cummulative_returns_simple_vals, compute_returns_simple_vals,
      pct_change_vals, cumprod, cumprodAux, fdiv, fsub, fadd, fmul]

/-- C3 (amended): the Cumulative Return Series computed inside
`plot_cummulative_returns` compounds: cumret[0] = 1 + return[0], and for
i ≥ 1 (phrased with i = j+1) cumret[i] = cumret[i-1] * (1 + return[i])
whenever cumret[i-1] is not NaN — pandas cumprod (skipna=True) keeps NaN
entries out of the accumulation, so the recurrence can fail right after
a NaN entry.  On Close = [100, 110, 99] the simple returns are
[1, 1/10, -1/10] with cumulative series [2, 11/5, 99/50]
(= [2.0, 2.2, 1.98]). -/
theorem cummulative_returns_recurrence (data : PriceSeries) :
    (∀ r0, (compute_returns_simple data).vals[0]? = some r0 →
      (cummulative_returns_simple_vals data.vals)[0]? =
        some (fadd (fin 1) r0)) ∧
    (∀ (j : Nat) (u r : FVal ℚ),
      (cummulative_returns_simple_vals data.vals)[j]? = some u →
      u ≠ FVal.nan →
      (compute_returns_simple data).vals[j + 1]? = some r →
      (cummulative_returns_simple_vals data.vals)[j + 1]? =
        some (fmul u (fadd (fin 1) r))) ∧
    compute_returns_simple_vals [100, 110, 99] =
      [fin 1, fin (1/10), fin (-1/10)] ∧
    cummulative_returns_simple_vals [100, 110, 99] =
      [fin 2, fin (11/5), fin (99/50)] := by
  refine ⟨?_, ?_, ?_, ?_⟩
  · intro r0 h0
    have hm : ((compute_returns_simple_vals data.vals).map
        (fun r => fadd r (fin 1)))[0]? = some (fadd r0 (fin 1)) := by
      rw [List.getElem?_map]
      have h0' : (compute_returns_simple_vals data.vals)[0]? = some r0 := h0
      rw [h0']
      rfl
    have hz := cumprod_getElem_zero _ _ hm
    rw [show cummulative_returns_simple_vals data.vals =
        cumprod ((compute_returns_simple_vals data.vals).map
          (fun r => fadd r (fin 1))) from rfl, hz, fmul_one_fadd_one]
  · intro j u r hu hun hr
    have hm : ((compute_returns_simple_vals data.vals).map
        (fun r => fadd r (fin 1)))[j + 1]? = some (fadd r (fin 1)) := by
      rw [List.getElem?_map]
      have hr' : (compute_returns_simple_vals data.vals)[j + 1]? = some r := hr
      rw [hr']
      rfl
    have hz := cumprod_getElem_succ _ j u (fadd r (fin 1)) hu hun hm
    rw [show cummulative_returns_simple_vals data.vals =
        cumprod ((compute_returns_simple_vals data.vals).map
          (fun r => fadd r (fin 1))) from rfl, hz, fadd_comm]
  · norm_num [compute_returns_simple_vals, pct_change_vals, fdiv, fsub]
  · norm_num [cummulative_returns_simple_vals, compute_returns_simple_vals,
      pct_change_vals, cumprod, cumprodAux, fdiv, fsub, fadd, fmul]

/-- C3 amended witness: Close = [100, 110, 99]: the recurrence
instantiated at index 0 and at index 1 (previous cumulative entry 2,
not NaN). -/
theorem cummulative_returns_recurrence_witness :
    (cummulative_returns_simple_vals [100, 110, 99])[0]? =
      some (fadd (fin 1) (fin (1 : ℚ))) ∧
    (cummulative_returns_simple_vals [100, 110, 99])[1]? =
      some (fmul (fin 2) (fadd (fin 1) (fin (1/10 : ℚ)))) := by
  have hr : (compute_returns_simple ⟨["d0", "d1", "d2"],
      [100, 110, 99]⟩).vals = [fin 1, fin (1/10), fin (-1/10)] :=
    (cummulative_returns_recurrence ⟨["d0", "d1", "d2"],
      [100, 110, 99]⟩).2.2.1
  have hc : cummulative_returns_simple_vals [100, 110, 99] =
      [fin 2, fin (11/5), fin (99/50)] :=
    (cummulative_returns_recurrence ⟨["d0", "d1", "d2"],
      [100, 110, 99]⟩).2.2.2
  constructor
  · exact (cummulative_returns_recurrence ⟨["d0", "d1", "d2"],
      [100, 110, 99]⟩).1 (fin 1) (by rw [hr]; simp)
  · exact (cummulative_returns_recurrence ⟨["d0", "d1", "d2"],
      [100, 110, 99]⟩).2.1 0 (fin 2) (fin (1/10))
      (by rw [hc]; simp) (by simp) (by rw [hr]; simp)

/-- C8: `plot_cummulative_returns` returns the axes object — with the
cumulative series and its title/label formatting — when the show flag is
false, and displays instead of returning (here: `none`) when it is true;
in both return modes. -/
theorem plot_cummulative_returns_show_flag (data : PriceSeries)
    (tick : String) :
    plot_cummulative_returns_simple data tick true = none ∧
    plot_cummulative_returns_simple data tick false =
      some ⟨cummulative_returns_simple_vals data.vals,
        tick ++ " - Daily Cummulative Returns", "", "Cummulative returns"⟩ ∧
    plot_cummulative_returns_log data tick true = none ∧
    plot_cummulative_returns_log data tick false =
      some ⟨cummulative_returns_log_vals data.vals,
        tick ++ " - Daily Cummulative Returns", "", "Cummulative returns"⟩ :=
  ⟨rfl, rfl, rfl, rfl⟩

/-- C9: neither `compute_returns` nor `plot_cummulative_returns` mutates
the input Price Series: every buffer already present in the store —
in particular the input's Close buffer — reads the same after either
call, and the one in-place write (`returns[0] = 1`) lands in the buffer
freshly allocated by `pct_change`, whose id is outside the input store. -/
theorem compute_returns_no_mutation (st : Store) (b j : Nat)
    (h : j < st.bufs.length) :
    (compute_returns_st st b).1.read j = st.read j ∧
    (plot_cummulative_returns_st st b).1.read j = st.read j ∧
    (compute_returns_st st b).2 = st.bufs.length := by
  have hc : (compute_returns_st st b).1.read j = st.read j := by
    show ((st.alloc (pct_change_fv (st.read b))).1.write
      st.bufs.length 0 (fin 1)).read j = st.read j
    rw [Store.read_write_other _ _ _ _ _ (by omega)]
    exact Store.read_alloc _ _ _ h
  have hlen : (compute_returns_st st b).1.bufs.length =
      st.bufs.length + 1 := by
    show ((st.alloc (pct_change_fv (st.read b))).1.write
      st.bufs.length 0 (fin 1)).bufs.length = st.bufs.length + 1
    simp [Store.alloc, Store.write]
  refine ⟨hc, ?_, rfl⟩
  show ((compute_returns_st st b).1.alloc
    (cumprod (((compute_returns_st st b).1.read
      (compute_returns_st st b).2).map (fun r => fadd r (fin 1))))).1.read j =
    st.read j
  rw [Store.read_alloc _ _ _ (by rw [hlen]; omega)]
  exact hc

/-- C9 witness: a store holding one Close buffer. -/
theorem compute_returns_no_mutation_witness :
    (compute_returns_st ⟨[[fin 1, fin 2]]⟩ 0).1.read 0 =
      Store.read ⟨[[fin 1, fin 2]]⟩ 0 ∧
    (plot_cummulative_returns_st ⟨[[fin 1, fin 2]]⟩ 0).1.read 0 =
      Store.read ⟨[[fin 1, fin 2]]⟩ 0 ∧
    (compute_returns_st ⟨[[fin 1, fin 2]]⟩ 0).2 = 1 :=
  compute_returns_no_mutation ⟨[[fin 1, fin 2]]⟩ 0 0 (by norm_num)

lemma exists_six {γ : Type} (l : List γ) (h : l.length = 6) :
    ∃ a b c d e f, l = [a, b, c, d, e, f] := by
  rcases l with _ | ⟨a, _ | ⟨b, _ | ⟨c, _ | ⟨d, _ | ⟨e, _ | ⟨f, rest⟩⟩⟩⟩⟩⟩ <;>
    simp_all

/-- C4: for every successful call (the provider returned its native six
columns), `download_stock` yields a table with exactly the five columns
[Open, Low, Close, High, Volume] in that fixed order, indexed by the
provider's dates, and the fetched Adjusted Close column is absent from
the output. -/
theorem download_stock_columns (provider : Request → RawFrame)
    (stock : List String) (ds de : String)
    (h : (provider (download_request stock ds de)).cols.length = 6) :
    ∃ df : DataFrame, (download_stock provider stock ds de).2 = some df ∧
      df.cols.map Prod.fst = ["Open", "Low", "Close", "High", "Volume"] ∧
      "Adj Close" ∉ df.cols.map Prod.fst ∧
      df.index = (provider (download_request stock ds de)).index := by
  have hpipe : (download_stock provider stock ds de).2 =
      (set_yahoo_columns
        (get_level_values_1 (provider (download_request stock ds de)))).bind
        (fun d => select_cols d ["Open", "Low", "Close", "High", "Volume"]) :=
    rfl
  rw [hpipe]
  generalize provider (download_request stock ds de) = raw at h ⊢
  obtain ⟨A, B, C, D, E, F, hcols⟩ := exists_six raw.cols h
  rcases raw with ⟨ridx, rcols⟩
  simp only at hcols
  subst hcols
  refine ⟨⟨ridx, [("Open", E.2), ("Low", D.2), ("Close", B.2),
    ("High", C.2), ("Volume", F.2)]⟩, ?_, rfl, ?_, rfl⟩
  · rfl
  · show "Adj Close" ∉ ["Open", "Low", "Close", "High", "Volume"]
    decide

/-- C4 witness: a provider returning the six Yahoo columns. -/
theorem download_stock_columns_witness :
    ((fun _ : Request => (⟨["2020-01-03"],
        [(("Adj Close", "AAPL"), [1]), (("Close", "AAPL"), [2]),
         (("High", "AAPL"), [3]), (("Low", "AAPL"), [4]),
         (("Open", "AAPL"), [5]), (("Volume", "AAPL"), [6])]⟩ : RawFrame))
      (download_request ["AAPL"] "2000-01-01" "2019-12-31")).cols.length = 6 ∧
    ∃ df : DataFrame,
      (download_stock
        (fun _ : Request => (⟨["2020-01-03"],
          [(("Adj Close", "AAPL"), [1]), (("Close", "AAPL"), [2]),
           (("High", "AAPL"), [3]), (("Low", "AAPL"), [4]),
           (("Open", "AAPL"), [5]), (("Volume", "AAPL"), [6])]⟩ : RawFrame))
        ["AAPL"] "2000-01-01" "2019-12-31").2 = some df ∧
      df.cols.map Prod.fst = ["Open", "Low", "Close", "High", "Volume"] ∧
      "Adj Close" ∉ df.cols.map Prod.fst ∧
      df.index = ["2020-01-03"] :=
  ⟨rfl, download_stock_columns _ ["AAPL"] "2000-01-01" "2019-12-31" rfl⟩

/-- C5 counterexample: `download_stock` does NOT use only the first
ticker symbol.  The symbol lists ['AAPL'] and ['AAPL', 'MSFT'] share
their first element and produce the same log line, but the issued
requests differ (the full list is passed to the provider), and there is
a provider against which the two calls return different results. -/
theorem download_stock_full_list_counterexample :
    download_log ["AAPL"] = download_log ["AAPL", "MSFT"] ∧
    download_request ["AAPL"] "2000-01-01" "2019-12-31" ≠
      download_request ["AAPL", "MSFT"] "2000-01-01" "2019-12-31" ∧
    (download_stock
        (fun r => if r.symbols.length = 1 then
          (⟨["2020-01-03"],
            [(("Adj Close", "AAPL"), [1]), (("Close", "AAPL"), [2]),
             (("High", "AAPL"), [3]), (("Low", "AAPL"), [4]),
             (("Open", "AAPL"), [5]), (("Volume", "AAPL"), [6])]⟩ : RawFrame)
          else ⟨[], []⟩)
        ["AAPL"] "2000-01-01" "2019-12-31").2 ≠
      (download_stock
        (fun r => if r.symbols.length = 1 then
          (⟨["2020-01-03"],
            [(("Adj Close", "AAPL"), [1]), (("Close", "AAPL"), [2]),
             (("High", "AAPL"), [3]), (("Low", "AAPL"), [4]),
             (("Open", "AAPL"), [5]), (("Volume", "AAPL"), [6])]⟩ : RawFrame)
          else ⟨[], []⟩)
        ["AAPL", "MSFT"] "2000-01-01" "2019-12-31").2 := by
  refine ⟨rfl, by decide, by decide⟩

/-- C5 (amended): the log line emitted by `download_stock` depends only
on the first symbol — two non-empty lists with the same first element
give the same log line — but the request handed to the provider carries
the entire symbol list: two requests coincide exactly when the whole
lists (and dates) do. -/
theorem download_stock_log_first_symbol (provider : Request → RawFrame)
    (s1 s2 : List String) (ds de : String) (h : s1.headD "" = s2.headD "") :
    (download_stock provider s1 ds de).1 =
      (download_stock provider s2 ds de).1 ∧
    (download_request s1 ds de = download_request s2 ds de ↔ s1 = s2) := by
  constructor
  · show download_log s1 = download_log s2
    rw [download_log, download_log, h]
  · constructor
    · intro he
      exact congrArg Request.symbols he
    · intro he
      rw [he]

/-- C5 amended witness. -/
theorem download_stock_log_first_symbol_witness :
    (["AAPL"] : List String).headD "" = (["AAPL", "MSFT"] : List String).headD "" ∧
    (download_stock (fun _ => (⟨[], []⟩ : RawFrame)) ["AAPL"] "a" "b").1 =
      (download_stock (fun _ => (⟨[], []⟩ : RawFrame)) ["AAPL", "MSFT"] "a" "b").1 ∧
    (download_request ["AAPL"] "a" "b" = download_request ["AAPL", "MSFT"] "a" "b" ↔
      (["AAPL"] : List String) = ["AAPL", "MSFT"]) :=
  ⟨rfl,
    (download_stock_log_first_symbol (fun _ => ⟨[], []⟩)
      ["AAPL"] ["AAPL", "MSFT"] "a" "b" rfl).1,
    (download_stock_log_first_symbol (fun _ => ⟨[], []⟩)
      ["AAPL"] ["AAPL", "MSFT"] "a" "b" rfl).2⟩
